import Mathlib

set_option maxRecDepth 100000

/-!
Verification of the SPI transport layer of `embedded-sdmmc-rs`
(`src/sdcard/transport.rs`).

The underlying `embedded_hal::spi::SpiDevice` is modelled as an oracle:
for the n-th SPI bus call it either fails with an error value or supplies
the byte stream the card drives back.  Every bus call made by the
transport is recorded in a trace, so that properties about the bytes
driven on the wire can be stated.  Machine integers are `Nat` with
explicit `% 256` (u8) and `% 2^32` (u32) reductions.
-/

/-- One SPI bus call as seen on the link: what the transport asked the
device to drive, tagged by which `embedded_hal` primitive was used. -/
inductive SpiEvent where
  /-- `SpiDevice::transfer(read, write)`: full-duplex, drives `written`. -/
  | transfer (written : List Nat) : SpiEvent
  /-- `SpiDevice::write(buf)`: write-only, no bytes read back. -/
  | write (written : List Nat) : SpiEvent
  /-- `SpiDevice::transfer_in_place(buf)`: full-duplex, drives `written`,
  result overwrites the caller's buffer. -/
  | transferInPlace (written : List Nat) : SpiEvent
deriving DecidableEq, Repr

/-- Model of an owned `SpiDevice` together with the history of bus calls.
`oracle n` decides the outcome of the n-th bus call: an underlying link
error, or the stream of bytes the card drives back (reduced `% 256` when
read, since the device yields `u8`).  `calls` counts bus calls made so
far and `trace` records them in order. -/
structure Spi (ε : Type) where
  oracle : Nat → Except ε (Nat → Nat)
  calls : Nat
  trace : List SpiEvent

/-- `true` iff an `Except` holds a success value. -/
def exceptOk {ε α : Type} : Except ε α → Bool
  | Except.ok _ => true
  | Except.error _ => false

/-- `SpiDevice::transfer`: drives `writeBuf` and reads back the same
number of bytes.  The attempt is recorded in the trace; a link failure
is returned unchanged. -/
def Spi.transfer {ε : Type} (s : Spi ε) (writeBuf : List Nat) :
    Except ε (List Nat) × Spi ε :=
  let s' : Spi ε := { s with calls := s.calls + 1,
                             trace := s.trace ++ [SpiEvent.transfer writeBuf] }
  match s.oracle s.calls with
  | Except.error e => (Except.error e, s')
  | Except.ok f => (Except.ok ((List.range writeBuf.length).map fun i => f i % 256), s')

/-- `SpiDevice::write`: drives `buf`, reads nothing back. -/
def Spi.write {ε : Type} (s : Spi ε) (buf : List Nat) :
    Except ε Unit × Spi ε :=
  let s' : Spi ε := { s with calls := s.calls + 1,
                             trace := s.trace ++ [SpiEvent.write buf] }
  match s.oracle s.calls with
  | Except.error e => (Except.error e, s')
  | Except.ok _ => (Except.ok (), s')

/-- `SpiDevice::transfer_in_place`: drives the buffer's current contents
and reads back the same number of bytes into it. -/
def Spi.transferInPlace {ε : Type} (s : Spi ε) (buf : List Nat) :
    Except ε (List Nat) × Spi ε :=
  let s' : Spi ε := { s with calls := s.calls + 1,
                             trace := s.trace ++ [SpiEvent.transferInPlace buf] }
  match s.oracle s.calls with
  | Except.error e => (Except.error e, s')
  | Except.ok f => (Except.ok ((List.range buf.length).map fun i => f i % 256), s')

/-- Modelled from the spec: the `crc7` function of the `sdcard` module is
referenced by `use super::crc7` but its source file is not part of the
provided sources.  Per spec §4.1 it is a 7-bit CRC with generator
polynomial x⁷+x³+1 (low bits `0x09`), initial value 0, processed
byte-by-byte and bit-by-bit most-significant-bit first; the remainder is
left-shifted into bit positions 7..1 of the output byte, bit 0 being the
stop bit (the convention pinned by the spec's CMD0 reference frame
`40 00 00 00 00 95`).  One step feeds a single input bit into the 7-bit
register. -/
def crc7Bit (crc bit : Nat) : Nat :=
  let inv := (bit ^^^ (crc >>> 6)) % 2
  let crc' := (crc <<< 1) % 128
  if inv = 1 then crc' ^^^ 0x09 else crc'

/-- Modelled from the spec: feed the 8 bits of one byte, MSB first. -/
def crc7Byte (crc d : Nat) : Nat :=
  (List.range 8).foldl (fun c i => crc7Bit c ((d >>> (7 - i)) % 2)) crc

/-- Modelled from the spec: CRC7 of a byte sequence, as the on-wire
checksum byte — remainder in bits 7..1, stop bit 1 in bit 0. -/
def crc7 (data : List Nat) : Nat :=
  ((data.foldl crc7Byte 0) <<< 1) ||| 1

/-- The 6-byte command frame `write_card_command` builds:
`[0x40 | command, arg>>24, arg>>16, arg>>8, arg, crc7(first five)]`,
with the `u8`/`u32` parameter types made explicit by `% 256`/`% 2^32`. -/
def command_frame (command arg : Nat) : List Nat :=
  let command := command % 256
  let arg := arg % 4294967296
  let body := [0x40 ||| command, (arg >>> 24) % 256, (arg >>> 16) % 256,
               (arg >>> 8) % 256, arg % 256]
  body ++ [crc7 body]

/-- `write_card_command`: build the command frame and write it to the
link as a single write, reading no response. -/
def write_card_command {ε : Type} (s : Spi ε) (command arg : Nat) :
    Except ε Unit × Spi ε :=
  Spi.write s (command_frame command arg)

/-- `transfer_byte`: send one byte, receive one byte.  The `?` operator
followed by `Ok(read_buf[0])` is embedded as `Except.map`. -/
def transfer_byte {ε : Type} (s : Spi ε) (byte : Nat) :
    Except ε Nat × Spi ε :=
  let p := Spi.transfer s [byte]
  (p.1.map fun l => l.headD 0, p.2)

/-- `read_card_response_u8`: exchange one sentinel byte, return the byte
driven back. -/
def read_card_response_u8 {ε : Type} (s : Spi ε) : Except ε Nat × Spi ε :=
  let p := Spi.transfer s [0xFF]
  (p.1.map fun l => l.headD 0, p.2)

/-- `u32::from_be_bytes` / `u128::from_be_bytes`: big-endian
interpretation of a byte list. -/
def from_be_bytes (l : List Nat) : Nat :=
  l.foldl (fun acc b => acc * 256 + b) 0

/-- `read_card_response_u32`: exchange four sentinel bytes, interpret the
four bytes driven back as big-endian. -/
def read_card_response_u32 {ε : Type} (s : Spi ε) : Except ε Nat × Spi ε :=
  let p := Spi.transfer s (List.replicate 4 0xFF)
  (p.1.map from_be_bytes, p.2)

/-- `read_card_response_u128`: exchange sixteen sentinel bytes, interpret
the sixteen bytes driven back as big-endian. -/
def read_card_response_u128 {ε : Type} (s : Spi ε) : Except ε Nat × Spi ε :=
  let p := Spi.transfer s (List.replicate 16 0xFF)
  (p.1.map from_be_bytes, p.2)

/-- `write_data`: write the buffer verbatim to the link. -/
def write_data {ε : Type} (s : Spi ε) (buf : List Nat) :
    Except ε Unit × Spi ε :=
  Spi.write s buf

/-- `read_data`: `buf.fill(0xFF)` then `transfer_in_place`; the returned
list is the buffer's final contents. -/
def read_data {ε : Type} (s : Spi ε) (buf : List Nat) :
    Except ε (List Nat) × Spi ε :=
  Spi.transferInPlace s (buf.map fun _ => 0xFF)

/-- The `for _ in 0..0xFF` loop of `flush_card`, with the remaining
iteration count explicit; `?` stops the loop at the first failure. -/
def flushLoop {ε : Type} (s : Spi ε) : Nat → Except ε Unit × Spi ε
  | 0 => (Except.ok (), s)
  | n + 1 =>
    match transfer_byte s 0xFF with
    | (Except.ok _, s') => flushLoop s' n
    | (Except.error e, s') => (Except.error e, s')

/-- `flush_card`: 255 single-byte sentinel exchanges, results ignored. -/
def flush_card {ε : Type} (s : Spi ε) : Except ε Unit × Spi ε :=
  flushLoop s 0xFF

/-- `is_busy`: exchange one sentinel byte; busy unless the byte driven
back is exactly `0xFF` (the source's two-arm match is the conditional
`if b = 0xFF then false else true`). -/
def is_busy {ε : Type} (s : Spi ε) : Except ε Bool × Spi ε :=
  let p := transfer_byte s 0xFF
  (p.1.map fun b => if b = 0xFF then false else true, p.2)

/-- `SpiTransport<SPI>`: owns exactly one SPI device. -/
structure SpiTransport (SPI : Type) where
  spi : SPI

/-- `SpiTransport::new`: wrap an owned SPI device. -/
def SpiTransport.new {SPI : Type} (spi : SPI) : SpiTransport SPI :=
  { spi := spi }

/-- `SpiTransport::spi`: scoped borrow — apply a caller-supplied function
to the owned device (the `FnOnce(&mut SPI) -> T` closure is embedded as
`SPI → T × SPI`), keep whatever device it leaves behind. -/
def SpiTransport.spiWith {SPI T : Type} (t : SpiTransport SPI)
    (func : SPI → T × SPI) : T × SpiTransport SPI :=
  ((func t.spi).1, { spi := (func t.spi).2 })

/-- `SpiTransport::free`: release the owned SPI device. -/
def SpiTransport.free {SPI : Type} (t : SpiTransport SPI) : SPI :=
  t.spi

/-- A concrete link whose every exchange succeeds, the card driving
`0x00` bytes. -/
def spiOk : Spi Unit :=
  { oracle := fun _ => Except.ok fun _ => 0, calls := 0, trace := [] }

/-- A concrete link whose every exchange fails. -/
def spiFail : Spi Unit :=
  { oracle := fun _ => Except.error (), calls := 0, trace := [] }

example : crc7 [0x40, 0x00, 0x00, 0x00, 0x00] = 0x95 := by decide
example : crc7 [0x48, 0x00, 0x00, 0x01, 0xAA] = 0x87 := by decide
example : crc7 [0x51, 0x00, 0x00, 0x01, 0xAA] = 0x11 := by decide

lemma Spi.transfer_snd {ε : Type} (s : Spi ε) (w : List Nat) :
    (Spi.transfer s w).2
      = { s with calls := s.calls + 1,
                 trace := s.trace ++ [SpiEvent.transfer w] } := by
  cases h : s.oracle s.calls <;> simp [Spi.transfer, h]

lemma Spi.write_snd {ε : Type} (s : Spi ε) (w : List Nat) :
    (Spi.write s w).2
      = { s with calls := s.calls + 1,
                 trace := s.trace ++ [SpiEvent.write w] } := by
  cases h : s.oracle s.calls <;> simp [Spi.write, h]

lemma Spi.transferInPlace_snd {ε : Type} (s : Spi ε) (w : List Nat) :
    (Spi.transferInPlace s w).2
      = { s with calls := s.calls + 1,
                 trace := s.trace ++ [SpiEvent.transferInPlace w] } := by
  cases h : s.oracle s.calls <;> simp [Spi.transferInPlace, h]

lemma Spi.transfer_fst_ok {ε : Type} {s : Spi ε} {f : Nat → Nat}
    (h : s.oracle s.calls = Except.ok f) (w : List Nat) :
    (Spi.transfer s w).1
      = Except.ok ((List.range w.length).map fun i => f i % 256) := by
  simp [Spi.transfer, h]

lemma Spi.transfer_fst_error {ε : Type} {s : Spi ε} {e : ε}
    (h : s.oracle s.calls = Except.error e) (w : List Nat) :
    (Spi.transfer s w).1 = Except.error e := by
  simp [Spi.transfer, h]

lemma Spi.write_fst_error {ε : Type} {s : Spi ε} {e : ε}
    (h : s.oracle s.calls = Except.error e) (w : List Nat) :
    (Spi.write s w).1 = Except.error e := by
  simp [Spi.write, h]

lemma Spi.transferInPlace_fst_error {ε : Type} {s : Spi ε} {e : ε}
    (h : s.oracle s.calls = Except.error e) (w : List Nat) :
    (Spi.transferInPlace s w).1 = Except.error e := by
  simp [Spi.transferInPlace, h]

lemma command_frame_explicit (c a : Nat) (hc : c ≤ 255) (ha : a < 2 ^ 32) :
    command_frame c a
      = [0x40 ||| c, a / 2 ^ 24 % 256, a / 2 ^ 16 % 256, a / 2 ^ 8 % 256,
         a % 256,
         crc7 [0x40 ||| c, a / 2 ^ 24 % 256, a / 2 ^ 16 % 256,
               a / 2 ^ 8 % 256, a % 256]] := by
  have h32 : a % 4294967296 = a := Nat.mod_eq_of_lt (by norm_num at ha ⊢; omega)
  have hcc : c % 256 = c := Nat.mod_eq_of_lt (by omega)
  simp only [command_frame, Nat.shiftRight_eq_div_pow, h32, hcc,
    List.cons_append, List.nil_append]

/-- C1: for every command index in 0–63 and every 32-bit argument,
`write_card_command` performs exactly one bus call, a single write of the
6-byte frame, reading no response; byte 0 of the frame is
`0x40 ||| (index &&& 0x3F)`, bytes 1–4 are the big-endian encoding of the
argument (they recompose to it positionally), and byte 5 is `crc7`
applied to bytes 0–4. -/
theorem write_card_command_spec {ε : Type} (s : Spi ε) (command arg : Nat)
    (hc : command ≤ 63) (ha : arg < 2 ^ 32) :
    (write_card_command s command arg).2.trace
        = s.trace ++ [SpiEvent.write (command_frame command arg)]
    ∧ (write_card_command s command arg).2.calls = s.calls + 1
    ∧ (command_frame command arg).length = 6
    ∧ (command_frame command arg).take 5
        = [0x40 ||| (command &&& 0x3F), arg / 2 ^ 24 % 256,
           arg / 2 ^ 16 % 256, arg / 2 ^ 8 % 256, arg % 256]
    ∧ (arg / 2 ^ 24 % 256) * 2 ^ 24 + (arg / 2 ^ 16 % 256) * 2 ^ 16
        + (arg / 2 ^ 8 % 256) * 2 ^ 8 + arg % 256 = arg
    ∧ (command_frame command arg).drop 5
        = [crc7 ((command_frame command arg).take 5)] := by
  have hand : 0x40 ||| command = 0x40 ||| (command &&& 0x3F) := by
    have h64 : ∀ c, c < 64 → 0x40 ||| c = 0x40 ||| (c &&& 0x3F) := by decide
    exact h64 command (by omega)
  have hfr := command_frame_explicit command arg (by omega) ha
  refine ⟨?_, ?_, ?_, ?_, ?_, ?_⟩
  · simp [write_card_command, Spi.write_snd]
  · simp [write_card_command, Spi.write_snd]
  · rw [hfr]; rfl
  · rw [hfr]; simp [hand]
  · have h1 : arg / 2 ^ 24 % 256 = arg / 2 ^ 24 := by
      have : arg / 2 ^ 24 < 256 := by
        apply Nat.div_lt_of_lt_mul; norm_num at ha ⊢; omega
      omega
    rw [h1]
    norm_num
    omega
  · rw [hfr]; rfl

/-- C1 witness: the theorem applied at the concrete command 17 with
argument 4660 on a link that always succeeds. -/
theorem write_card_command_spec_witness :
    17 ≤ 63 ∧ 4660 < 2 ^ 32
    ∧ ((write_card_command spiOk 17 4660).2.trace
          = spiOk.trace ++ [SpiEvent.write (command_frame 17 4660)]
      ∧ (write_card_command spiOk 17 4660).2.calls = spiOk.calls + 1
      ∧ (command_frame 17 4660).length = 6
      ∧ (command_frame 17 4660).take 5
          = [0x40 ||| (17 &&& 0x3F), 4660 / 2 ^ 24 % 256,
             4660 / 2 ^ 16 % 256, 4660 / 2 ^ 8 % 256, 4660 % 256]
      ∧ (4660 / 2 ^ 24 % 256) * 2 ^ 24 + (4660 / 2 ^ 16 % 256) * 2 ^ 16
          + (4660 / 2 ^ 8 % 256) * 2 ^ 8 + 4660 % 256 = 4660
      ∧ (command_frame 17 4660).drop 5
          = [crc7 ((command_frame 17 4660).take 5)]) :=
  ⟨by decide, by norm_num,
    write_card_command_spec spiOk 17 4660 (by decide) (by norm_num)⟩

/-- C2 counterexample: `crc7` of the byte sequence
`[0x51, 0x00, 0x00, 0x01, 0xAA]` is `0x11`, not `0x87` as the claim
states (the claim's own reference frame for CMD8 starts with `0x48`, not
`0x51`). -/
theorem crc7_cmd8_vector_cex :
    crc7 [0x51, 0x00, 0x00, 0x01, 0xAA] = 0x11
    ∧ crc7 [0x51, 0x00, 0x00, 0x01, 0xAA] ≠ 0x87 := by decide

/-- C2 amended: `crc7 [0x40,0,0,0,0] = 0x95` and
`crc7 [0x48,0,0,1,0xAA] = 0x87` (the CMD8 reference frame
`48 00 00 01 AA 87`), and `write_card_command(0x00, 0x00000000)` puts
exactly the bytes `40 00 00 00 00 95` on the wire as one write. -/
theorem crc7_known_vectors :
    crc7 [0x40, 0x00, 0x00, 0x00, 0x00] = 0x95
    ∧ crc7 [0x48, 0x00, 0x00, 0x01, 0xAA] = 0x87
    ∧ ∀ (ε : Type) (s : Spi ε),
        (write_card_command s 0x00 0x00000000).2.trace
          = s.trace ++ [SpiEvent.write [0x40, 0x00, 0x00, 0x00, 0x00, 0x95]] := by
  refine ⟨by decide, by decide, fun ε s => ?_⟩
  have hfr : command_frame 0x00 0x00000000
      = [0x40, 0x00, 0x00, 0x00, 0x00, 0x95] := by decide
  simp [write_card_command, hfr, Spi.write_snd]

/-- C3 counterexample: at the 8-bit command value `0x80` the single frame
written by `write_card_command` has first byte `0xC0`, whose top two
bits are `11`, not the fixed pattern `01`. -/
theorem first_byte_top_bits_cex :
    (write_card_command spiOk 0x80 0).2.trace
        = [SpiEvent.write (command_frame 0x80 0)]
    ∧ (command_frame 0x80 0).headD 0 = 0xC0
    ∧ ¬((command_frame 0x80 0).headD 0 >>> 6 = 1) := by decide

/-- C3 amended: for every 8-bit command parameter and any argument,
`write_card_command` writes a single frame whose first byte is
`0x40 ||| command`; its low six bits equal the command's low six bits
(`command % 64`), bit 6 is always set, and the top two bits equal the
pattern `01` exactly when the parameter is below `0x80` (in particular
for all genuine command indices 0–63). -/
theorem first_byte_spec {ε : Type} (s : Spi ε) (command arg : Nat)
    (hc : command < 256) :
    (write_card_command s command arg).2.trace
        = s.trace ++ [SpiEvent.write (command_frame command arg)]
    ∧ (command_frame command arg).headD 0 = 0x40 ||| command
    ∧ (command_frame command arg).headD 0 % 64 = command % 64
    ∧ (command_frame command arg).headD 0 / 64 % 2 = 1
    ∧ ((command_frame command arg).headD 0 >>> 6 = 1 ↔ command < 128) := by
  have hbits : ∀ c, c < 256 →
      (0x40 ||| c) % 64 = c % 64 ∧ (0x40 ||| c) / 64 % 2 = 1
      ∧ ((0x40 ||| c) >>> 6 = 1 ↔ c < 128) := by decide
  have hcc : command % 256 = command := Nat.mod_eq_of_lt hc
  have hhead : (command_frame command arg).headD 0 = 0x40 ||| command := by
    simp only [command_frame, hcc, List.cons_append, List.headD_cons]
  refine ⟨by simp [write_card_command, Spi.write_snd], hhead, ?_, ?_, ?_⟩
  · rw [hhead]; exact (hbits command hc).1
  · rw [hhead]; exact (hbits command hc).2.1
  · rw [hhead]; exact (hbits command hc).2.2

/-- C3 witness: the amended theorem applied at the concrete 8-bit command
value 70 (an out-of-range index with bit 6 set) and argument 0. -/
theorem first_byte_spec_witness :
    70 < 256
    ∧ ((write_card_command spiOk 70 0).2.trace
          = spiOk.trace ++ [SpiEvent.write (command_frame 70 0)]
      ∧ (command_frame 70 0).headD 0 = 0x40 ||| 70
      ∧ (command_frame 70 0).headD 0 % 64 = 70 % 64
      ∧ (command_frame 70 0).headD 0 / 64 % 2 = 1
      ∧ ((command_frame 70 0).headD 0 >>> 6 = 1 ↔ 70 < 128)) :=
  ⟨by decide, first_byte_spec spiOk 70 0 (by decide)⟩

lemma transfer_byte_ok {ε : Type} {s : Spi ε} {f : Nat → Nat}
    (h : s.oracle s.calls = Except.ok f) (b : Nat) :
    transfer_byte s b
      = (Except.ok (f 0 % 256),
         { s with calls := s.calls + 1,
                  trace := s.trace ++ [SpiEvent.transfer [b]] }) := by
  have h1 : List.range 1 = [0] := rfl
  simp [transfer_byte, Spi.transfer, h, Except.map, h1]

lemma transfer_byte_error {ε : Type} {s : Spi ε} {e : ε}
    (h : s.oracle s.calls = Except.error e) (b : Nat) :
    transfer_byte s b
      = (Except.error e,
         { s with calls := s.calls + 1,
                  trace := s.trace ++ [SpiEvent.transfer [b]] }) := by
  simp [transfer_byte, Spi.transfer, h, Except.map]

lemma flushLoop_ok {ε : Type} :
    ∀ (n : Nat) (s : Spi ε),
      (∀ i, i < n → exceptOk (s.oracle (s.calls + i)) = true) →
      flushLoop s n
        = (Except.ok (),
           { s with calls := s.calls + n,
                    trace := s.trace
                      ++ List.replicate n (SpiEvent.transfer [0xFF]) }) := by
  intro n
  induction n with
  | zero => intro s _; simp [flushLoop]
  | succ m ih =>
    intro s h
    have h0 := h 0 (Nat.succ_pos m)
    cases he : s.oracle s.calls with
    | error e => rw [Nat.add_zero] at h0; rw [he] at h0; simp [exceptOk] at h0
    | ok f =>
      have hrec := ih { s with calls := s.calls + 1,
                               trace := s.trace ++ [SpiEvent.transfer [0xFF]] }
        (by
          intro i hi
          have := h (i + 1) (by omega)
          have harith : s.calls + (i + 1) = s.calls + 1 + i := by omega
          rw [harith] at this
          exact this)
      rw [flushLoop, transfer_byte_ok he]
      refine hrec.trans ?_
      have harith : s.calls + 1 + m = s.calls + (m + 1) := by omega
      simp [harith, List.replicate_succ]

lemma flushLoop_error {ε : Type} :
    ∀ (n : Nat) (s : Spi ε) (j : Nat) (e : ε),
      j < n →
      (∀ i, i < j → exceptOk (s.oracle (s.calls + i)) = true) →
      s.oracle (s.calls + j) = Except.error e →
      (flushLoop s n).1 = Except.error e
      ∧ (flushLoop s n).2.calls = s.calls + j + 1 := by
  intro n
  induction n with
  | zero => intro s j e hj _ _; omega
  | succ m ih =>
    intro s j e hj hok herr
    cases j with
    | zero =>
      rw [Nat.add_zero] at herr
      rw [flushLoop, transfer_byte_error herr]
      exact ⟨rfl, rfl⟩
    | succ j' =>
      have h0 := hok 0 (Nat.succ_pos j')
      cases he : s.oracle s.calls with
      | error e' => rw [Nat.add_zero] at h0; rw [he] at h0; simp [exceptOk] at h0
      | ok f =>
        have hrec := ih { s with calls := s.calls + 1,
                                 trace := s.trace ++ [SpiEvent.transfer [0xFF]] }
          j' e (by omega)
          (by
            intro i hi
            have := hok (i + 1) (by omega)
            have harith : s.calls + (i + 1) = s.calls + 1 + i := by omega
            rw [harith] at this
            exact this)
          (by
            have harith : s.calls + (j' + 1) = s.calls + 1 + j' := by omega
            rw [harith] at herr
            exact herr)
        rw [flushLoop, transfer_byte_ok he]
        have harith : s.calls + 1 + j' + 1 = s.calls + (j' + 1) + 1 := by omega
        exact ⟨hrec.1, hrec.2.trans harith⟩

/-- C4: when every one of the next 255 underlying exchanges succeeds,
`flush_card` performs exactly 255 single-byte full-duplex exchanges, each
driving `0xFF`, and returns `Ok(())`, whatever bytes the link returns. -/
theorem flush_card_spec {ε : Type} (s : Spi ε)
    (h : ∀ i, i < 255 → exceptOk (s.oracle (s.calls + i)) = true) :
    (flush_card s).1 = Except.ok ()
    ∧ (flush_card s).2.calls = s.calls + 255
    ∧ (flush_card s).2.trace
        = s.trace ++ List.replicate 255 (SpiEvent.transfer [0xFF]) := by
  have := flushLoop_ok 255 s h
  rw [flush_card]
  rw [this]
  exact ⟨rfl, rfl, rfl⟩

/-- C4 witness: the theorem applied to the concrete always-succeeding
link. -/
theorem flush_card_spec_witness :
    (∀ i, i < 255 → exceptOk (spiOk.oracle (spiOk.calls + i)) = true)
    ∧ ((flush_card spiOk).1 = Except.ok ()
      ∧ (flush_card spiOk).2.calls = spiOk.calls + 255
      ∧ (flush_card spiOk).2.trace
          = spiOk.trace ++ List.replicate 255 (SpiEvent.transfer [0xFF])) :=
  ⟨fun _ _ => rfl, flush_card_spec spiOk fun _ _ => rfl⟩

/-- C5: if the underlying exchange at the current bus position fails with
error `e`, every Transport operation returns exactly `e` after that one
exchange; and if during `flush_card` the first failing exchange is the
j-th (all earlier ones succeeding), `flush_card` returns `e` having
performed exactly j+1 exchanges — it stops at the first failure. -/
theorem error_propagation_spec {ε : Type} (s : Spi ε) (e : ε)
    (command arg : Nat) (buf : List Nat) :
    (s.oracle s.calls = Except.error e →
      ((write_card_command s command arg).1 = Except.error e
        ∧ (write_card_command s command arg).2.calls = s.calls + 1)
      ∧ ((read_card_response_u8 s).1 = Except.error e
        ∧ (read_card_response_u8 s).2.calls = s.calls + 1)
      ∧ ((read_card_response_u32 s).1 = Except.error e
        ∧ (read_card_response_u32 s).2.calls = s.calls + 1)
      ∧ ((read_card_response_u128 s).1 = Except.error e
        ∧ (read_card_response_u128 s).2.calls = s.calls + 1)
      ∧ ((write_data s buf).1 = Except.error e
        ∧ (write_data s buf).2.calls = s.calls + 1)
      ∧ ((read_data s buf).1 = Except.error e
        ∧ (read_data s buf).2.calls = s.calls + 1)
      ∧ ((is_busy s).1 = Except.error e
        ∧ (is_busy s).2.calls = s.calls + 1)
      ∧ ((flush_card s).1 = Except.error e
        ∧ (flush_card s).2.calls = s.calls + 1))
    ∧ (∀ j, j < 255 →
        (∀ i, i < j → exceptOk (s.oracle (s.calls + i)) = true) →
        s.oracle (s.calls + j) = Except.error e →
        (flush_card s).1 = Except.error e
        ∧ (flush_card s).2.calls = s.calls + j + 1) := by
  constructor
  · intro h
    refine ⟨?_, ?_, ?_, ?_, ?_, ?_, ?_, ?_⟩
    · exact ⟨Spi.write_fst_error h _, by simp [write_card_command, Spi.write_snd]⟩
    · exact ⟨by simp [read_card_response_u8, Spi.transfer_fst_error h, Except.map],
        by simp [read_card_response_u8, Spi.transfer_snd]⟩
    · exact ⟨by simp [read_card_response_u32, Spi.transfer_fst_error h, Except.map],
        by simp [read_card_response_u32, Spi.transfer_snd]⟩
    · exact ⟨by simp [read_card_response_u128, Spi.transfer_fst_error h, Except.map],
        by simp [read_card_response_u128, Spi.transfer_snd]⟩
    · exact ⟨Spi.write_fst_error h _, by simp [write_data, Spi.write_snd]⟩
    · exact ⟨Spi.transferInPlace_fst_error h _,
        by simp [read_data, Spi.transferInPlace_snd]⟩
    · exact ⟨by simp [is_busy, transfer_byte, Spi.transfer_fst_error h, Except.map],
        by simp [is_busy, transfer_byte, Spi.transfer_snd]⟩
    · have := flushLoop_error 255 s 0 e (by omega)
        (fun i hi => absurd hi (Nat.not_lt_zero i))
        (by rw [Nat.add_zero]; exact h)
      exact ⟨this.1, this.2⟩
  · intro j hj hok herr
    exact flushLoop_error 255 s j e hj hok herr

/-- C5 witness: the theorem applied to the concrete always-failing link,
whose very first exchange fails. -/
theorem error_propagation_spec_witness :
    spiFail.oracle spiFail.calls = Except.error ()
    ∧ (((write_card_command spiFail 0 0).1 = Except.error ()
        ∧ (write_card_command spiFail 0 0).2.calls = spiFail.calls + 1)
      ∧ ((read_card_response_u8 spiFail).1 = Except.error ()
        ∧ (read_card_response_u8 spiFail).2.calls = spiFail.calls + 1)
      ∧ ((read_card_response_u32 spiFail).1 = Except.error ()
        ∧ (read_card_response_u32 spiFail).2.calls = spiFail.calls + 1)
      ∧ ((read_card_response_u128 spiFail).1 = Except.error ()
        ∧ (read_card_response_u128 spiFail).2.calls = spiFail.calls + 1)
      ∧ ((write_data spiFail []).1 = Except.error ()
        ∧ (write_data spiFail []).2.calls = spiFail.calls + 1)
      ∧ ((read_data spiFail []).1 = Except.error ()
        ∧ (read_data spiFail []).2.calls = spiFail.calls + 1)
      ∧ ((is_busy spiFail).1 = Except.error ()
        ∧ (is_busy spiFail).2.calls = spiFail.calls + 1)
      ∧ ((flush_card spiFail).1 = Except.error ()
        ∧ (flush_card spiFail).2.calls = spiFail.calls + 1)) :=
  ⟨rfl, (error_propagation_spec spiFail () 0 0 []).1 rfl⟩

/-- C6: every read operation drives only `0xFF` bytes on the link — each
performs a single exchange whose outbound pattern is a replicate of the
sentinel `0xFF`, whatever the requested length. -/
theorem sentinel_reads_spec {ε : Type} (s : Spi ε) (buf : List Nat) :
    (read_card_response_u8 s).2.trace
        = s.trace ++ [SpiEvent.transfer (List.replicate 1 0xFF)]
    ∧ (read_card_response_u32 s).2.trace
        = s.trace ++ [SpiEvent.transfer (List.replicate 4 0xFF)]
    ∧ (read_card_response_u128 s).2.trace
        = s.trace ++ [SpiEvent.transfer (List.replicate 16 0xFF)]
    ∧ (read_data s buf).2.trace
        = s.trace ++ [SpiEvent.transferInPlace (List.replicate buf.length 0xFF)]
    ∧ (is_busy s).2.trace
        = s.trace ++ [SpiEvent.transfer (List.replicate 1 0xFF)] := by
  refine ⟨?_, ?_, ?_, ?_, ?_⟩ <;>
    simp [read_card_response_u8, read_card_response_u32, read_card_response_u128,
      read_data, is_busy, transfer_byte, Spi.transfer_snd, Spi.transferInPlace_snd,
      List.map_const', List.replicate_succ]

/-- C7: `is_busy` returns `Ok(false)` exactly when the byte the link
returns is `0xFF` and `Ok(true)` for every other byte value. -/
theorem is_busy_spec {ε : Type} (s : Spi ε) (f : Nat → Nat)
    (h : s.oracle s.calls = Except.ok f) :
    ((is_busy s).1 = Except.ok false ↔ f 0 % 256 = 0xFF)
    ∧ ((is_busy s).1 = Except.ok true ↔ f 0 % 256 ≠ 0xFF) := by
  by_cases hfb : f 0 % 256 = 0xFF <;>
    simp [is_busy, transfer_byte_ok h, Except.map, hfb]

/-- A link on which the card always drives the byte `b`. -/
def spiRespond (b : Nat) : Spi Unit :=
  { oracle := fun _ => Except.ok fun _ => b, calls := 0, trace := [] }

/-- C7 witness: the theorem applied to a link driving back `0xFE`, a
non-`0xFF` byte, so the card reads as busy. -/
theorem is_busy_spec_witness :
    (spiRespond 0xFE).oracle (spiRespond 0xFE).calls
        = Except.ok (fun _ => 0xFE)
    ∧ (((is_busy (spiRespond 0xFE)).1 = Except.ok false
          ↔ (fun _ : Nat => 0xFE) 0 % 256 = 0xFF)
      ∧ ((is_busy (spiRespond 0xFE)).1 = Except.ok true
          ↔ (fun _ : Nat => 0xFE) 0 % 256 ≠ 0xFF)) :=
  ⟨rfl, is_busy_spec (spiRespond 0xFE) (fun _ => 0xFE) rfl⟩

/-- C8: `read_card_response_u32` interprets the four bytes the link
returns as a big-endian unsigned 32-bit value, and
`read_card_response_u128` the sixteen returned bytes as a big-endian
unsigned 128-bit value. -/
theorem read_response_be_spec {ε : Type} (s : Spi ε) (f : Nat → Nat)
    (h : s.oracle s.calls = Except.ok f) :
    (read_card_response_u32 s).1
        = Except.ok ((f 0 % 256) * 2 ^ 24 + (f 1 % 256) * 2 ^ 16
            + (f 2 % 256) * 2 ^ 8 + f 3 % 256)
    ∧ (read_card_response_u128 s).1
        = Except.ok ((f 0 % 256) * 2 ^ 120 + (f 1 % 256) * 2 ^ 112
            + (f 2 % 256) * 2 ^ 104 + (f 3 % 256) * 2 ^ 96
            + (f 4 % 256) * 2 ^ 88 + (f 5 % 256) * 2 ^ 80
            + (f 6 % 256) * 2 ^ 72 + (f 7 % 256) * 2 ^ 64
            + (f 8 % 256) * 2 ^ 56 + (f 9 % 256) * 2 ^ 48
            + (f 10 % 256) * 2 ^ 40 + (f 11 % 256) * 2 ^ 32
            + (f 12 % 256) * 2 ^ 24 + (f 13 % 256) * 2 ^ 16
            + (f 14 % 256) * 2 ^ 8 + f 15 % 256) := by
  have h4 : List.range (List.replicate 4 0xFF).length = [0, 1, 2, 3] := rfl
  have h16 : List.range (List.replicate 16 0xFF).length
      = [0, 1, 2, 3, 4, 5, 6, 7, 8, 9, 10, 11, 12, 13, 14, 15] := rfl
  constructor
  · simp only [read_card_response_u32, Spi.transfer_fst_ok h, Except.map, h4,
      List.map_cons, List.map_nil, from_be_bytes, List.foldl_cons, List.foldl_nil]
    norm_num
    ring
  · simp only [read_card_response_u128, Spi.transfer_fst_ok h, Except.map, h16,
      List.map_cons, List.map_nil, from_be_bytes, List.foldl_cons, List.foldl_nil]
    norm_num
    ring

/-- A link on which the card drives back, on every exchange, the byte
sequence `l` (padded with zeros). -/
def spiBytes (l : List Nat) : Spi Unit :=
  { oracle := fun _ => Except.ok fun i => l.getD i 0, calls := 0, trace := [] }

/-- C8 witness: the theorem applied to a link returning the bytes
`[0x00, 0x00, 0x01, 0x00]`, which read back as the value 256. -/
theorem read_response_be_spec_witness :
    (spiBytes [0, 0, 1, 0]).oracle (spiBytes [0, 0, 1, 0]).calls
        = Except.ok (fun i => [0, 0, 1, 0].getD i 0)
    ∧ (read_card_response_u32 (spiBytes [0, 0, 1, 0])).1 = Except.ok 256
    ∧ ((read_card_response_u32 (spiBytes [0, 0, 1, 0])).1
          = Except.ok (([0, 0, 1, 0].getD 0 0 % 256) * 2 ^ 24
              + ([0, 0, 1, 0].getD 1 0 % 256) * 2 ^ 16
              + ([0, 0, 1, 0].getD 2 0 % 256) * 2 ^ 8
              + [0, 0, 1, 0].getD 3 0 % 256)
      ∧ (read_card_response_u128 (spiBytes [0, 0, 1, 0])).1
          = Except.ok (([0, 0, 1, 0].getD 0 0 % 256) * 2 ^ 120
              + ([0, 0, 1, 0].getD 1 0 % 256) * 2 ^ 112
              + ([0, 0, 1, 0].getD 2 0 % 256) * 2 ^ 104
              + ([0, 0, 1, 0].getD 3 0 % 256) * 2 ^ 96
              + ([0, 0, 1, 0].getD 4 0 % 256) * 2 ^ 88
              + ([0, 0, 1, 0].getD 5 0 % 256) * 2 ^ 80
              + ([0, 0, 1, 0].getD 6 0 % 256) * 2 ^ 72
              + ([0, 0, 1, 0].getD 7 0 % 256) * 2 ^ 64
              + ([0, 0, 1, 0].getD 8 0 % 256) * 2 ^ 56
              + ([0, 0, 1, 0].getD 9 0 % 256) * 2 ^ 48
              + ([0, 0, 1, 0].getD 10 0 % 256) * 2 ^ 40
              + ([0, 0, 1, 0].getD 11 0 % 256) * 2 ^ 32
              + ([0, 0, 1, 0].getD 12 0 % 256) * 2 ^ 24
              + ([0, 0, 1, 0].getD 13 0 % 256) * 2 ^ 16
              + ([0, 0, 1, 0].getD 14 0 % 256) * 2 ^ 8
              + [0, 0, 1, 0].getD 15 0 % 256)) :=
  ⟨rfl, rfl,
    read_response_be_spec (spiBytes [0, 0, 1, 0]) (fun i => [0, 0, 1, 0].getD i 0) rfl⟩

/-- C9: `read_data` is independent of the buffer's initial contents —
for two buffers of the same length the bytes driven on the link, the
final buffer contents and the result are identical, because the buffer
is overwritten with sentinel bytes before the exchange. -/
theorem read_data_indep {ε : Type} (s : Spi ε) (buf1 buf2 : List Nat)
    (h : buf1.length = buf2.length) :
    read_data s buf1 = read_data s buf2 := by
  unfold read_data
  rw [List.map_const', List.map_const', h]

/-- C9 witness: the theorem applied to two equal-length buffers with
different contents on a concrete link. -/
theorem read_data_indep_witness :
    ([1, 2, 3] : List Nat).length = ([250, 251, 252] : List Nat).length
    ∧ read_data spiOk [1, 2, 3] = read_data spiOk [250, 251, 252] :=
  ⟨rfl, read_data_indep spiOk [1, 2, 3] [250, 251, 252] rfl⟩

/-- C10: releasing a freshly constructed transport returns exactly the
wrapped SPI device (construction then release is the identity on the
owned primitive), and the scoped-borrow accessor returns the result of
applying the supplied function to the owned device, retaining the device
that function leaves behind. -/
theorem transport_ownership_spec {SPI T : Type} (dev : SPI)
    (t : SpiTransport SPI) (func : SPI → T × SPI) :
    (SpiTransport.new dev).free = dev
    ∧ (SpiTransport.new dev).spi = dev
    ∧ (SpiTransport.spiWith t func).1 = (func t.spi).1
    ∧ (SpiTransport.spiWith t func).2.spi = (func t.spi).2 :=
  ⟨rfl, rfl, rfl, rfl⟩
